import Mathlib

/-!
Verification development for the lxpkg-gui source-based package installer
(`src/lxpkg_gui.py`).  The installation pipeline, fetcher, build executor,
descriptor loading and the single-flight guard are embedded as pure Lean
functions; external effects (filesystem walk results, network download
outcome, archive contents, shell command results) are supplied through an
explicit `World` record, and emitted Qt signals / widget status updates are
collected as an explicit event list.
-/

namespace LxpkgGui

/-! ### String helpers (structural models of the `os.path` / `str` operations used) -/

/-- Model of splitting a character list on a separator character, as
`str.split` does (always returns at least one, possibly empty, piece). -/
def splitOnChar (c : Char) : List Char → List (List Char)
  | [] => [[]]
  | a :: t =>
    let r := splitOnChar c t
    if a == c then [] :: r
    else
      match r with
      | [] => [[a]]
      | h :: rt => (a :: h) :: rt

/-- Join character-list pieces with a separator character (inverse of split). -/
def joinWithChar (c : Char) : List (List Char) → List Char
  | [] => []
  | [x] => x
  | x :: y :: t => x ++ c :: joinWithChar c (y :: t)

/-- Model of `os.path.basename`: the part after the last slash. -/
def basename (p : String) : String :=
  String.mk ((splitOnChar '/' p.data).getLastD [])

/-- Model of `os.path.dirname`: everything before the last slash. -/
def dirname (p : String) : String :=
  String.mk (joinWithChar '/' (splitOnChar '/' p.data).dropLast)

/-- Model of `os.path.join` for a relative second component. -/
def pathJoin (d f : String) : String := d ++ "/" ++ f

/-- Model of `os.path.splitext(f)[0]`: drop the extension after the last dot. -/
def splitextStem (f : String) : String :=
  let parts := splitOnChar '.' f.data
  if parts.length ≤ 1 then f else String.mk (joinWithChar '.' parts.dropLast)

/-- Boolean test that `needle` occurs at the start of `hay`. -/
def leadsChars : List Char → List Char → Bool
  | [], _ => true
  | _ :: _, [] => false
  | a :: as, b :: bs => a == b && leadsChars as bs

/-- Boolean substring test on character lists (Python `needle in hay`). -/
def containsSub (needle : List Char) : List Char → Bool
  | [] => leadsChars needle []
  | h :: t => leadsChars needle (h :: t) || containsSub needle t

/-- Python `needle in hay` on strings. -/
def substrTest (needle hay : String) : Bool :=
  containsSub needle.data hay.data

/-- Model of `str.lower` (per-character lowering). -/
def strToLower (s : String) : String :=
  String.mk (s.data.map Char.toLower)

/-- Model of `str.endswith`. -/
def strEndsWith (s post : String) : Bool :=
  leadsChars post.data.reverse s.data.reverse

/-! ### Path constants (`lxpkg_gui.py` lines 16-18) -/

def SOURCES_BASE_DIR : String := "/home/user/sources"

def BUILD_DIR : String := "/home/user/sources/build"

def INSTALL_DIR : String := "/usr"

/-! ### Data model: parsed TOML descriptor content -/

/-- The `[package]` table of a descriptor; each key may be absent
(`load_package_info` performs no validation). -/
structure PkgSection where
  name : Option String
  src : Option (List String)
deriving Repr, DecidableEq

/-- The `[build]` table of a descriptor; each stage list is optional. -/
structure BuildSection where
  configure : Option (List String)
  compile : Option (List String)
  install : Option (List String)
deriving Repr, DecidableEq

/-- A parsed descriptor: top-level tables, each possibly absent. -/
structure TomlData where
  package : Option PkgSection
  build : Option BuildSection
deriving Repr, DecidableEq

/-- Python `str(KeyError(k))` renders as the quoted key. -/
def keyErrorMsg (k : String) : String := "\x27" ++ k ++ "\x27"

/-! ### Events (Qt signals and status-label updates made observable) -/

/-- Observable outputs of a job: `progress` / `message` signals, direct
status-label writes, and the single `finished` completion signal. -/
inductive Event where
  | progress (n : Nat)
  | message (s : String)
  | status (s : String)
  | finished (success : Bool) (msg : String) (detail : String)
deriving Repr, DecidableEq

/-- The progress percentages of an event list, in emission order. -/
def progressVals (evs : List Event) : List Nat :=
  evs.filterMap fun e =>
    match e with
    | .progress n => some n
    | _ => none

/-- The completion events of an event list, in emission order. -/
def completions (evs : List Event) : List (Bool × String × String) :=
  evs.filterMap fun e =>
    match e with
    | .finished s m d => some (s, m, d)
    | _ => none

@[simp]
theorem progressVals_nil : progressVals [] = [] := rfl

@[simp]
theorem progressVals_cons_progress (n : Nat) (l : List Event) :
    progressVals (.progress n :: l) = n :: progressVals l := rfl

@[simp]
theorem progressVals_cons_message (s : String) (l : List Event) :
    progressVals (.message s :: l) = progressVals l := rfl

@[simp]
theorem progressVals_cons_status (s : String) (l : List Event) :
    progressVals (.status s :: l) = progressVals l := rfl

@[simp]
theorem progressVals_cons_finished (b : Bool) (m d : String) (l : List Event) :
    progressVals (.finished b m d :: l) = progressVals l := rfl

@[simp]
theorem completions_nil : completions [] = [] := rfl

@[simp]
theorem completions_cons_progress (n : Nat) (l : List Event) :
    completions (.progress n :: l) = completions l := rfl

@[simp]
theorem completions_cons_message (s : String) (l : List Event) :
    completions (.message s :: l) = completions l := rfl

@[simp]
theorem completions_cons_status (s : String) (l : List Event) :
    completions (.status s :: l) = completions l := rfl

@[simp]
theorem completions_cons_finished (b : Bool) (m d : String) (l : List Event) :
    completions (.finished b m d :: l) = (b, m, d) :: completions l := rfl

/-! ### `PackageManager.load_package_info` (lines 537-543) -/

/-- Embedding of `load_package_info`: `toml.load`'s outcome is the input
(error = the parse/IO exception text); on failure the exception is re-raised
with a wrapping message, on success the parsed data is returned unchanged —
no schema validation of any kind is performed. -/
def load_package_info (parsed : Except String TomlData) : Except String TomlData :=
  match parsed with
  | .error e => .error ("Oops, couldn’t load the TOML file: " ++ e)
  | .ok t => .ok t

/-! ### `PackageManager.fetch_source` (lines 545-554) -/

/-- Result of a successful `fetch_source` call: the filesystem afterwards,
the returned path, whether `urlretrieve` ran, and status-label events. -/
structure FetchOut where
  fs : List String
  path : String
  network : Bool
  events : List Event
deriving Repr, DecidableEq

/-- Embedding of `fetch_source`: the target name is the URL base name joined
to `dest_dir`; if that file exists it is returned with no download and no
status message; otherwise `urlretrieve` runs (outcome supplied by `download`)
and on success the file is created and a status message emitted. -/
def fetch_source (download : Except String Unit) (fs : List String)
    (url dest_dir : String) : Except String FetchOut :=
  let filename := pathJoin dest_dir (basename url)
  if filename ∈ fs then
    .ok ⟨fs, filename, false, []⟩
  else
    match download with
    | .ok _ =>
        .ok ⟨filename :: fs, filename, true,
          [Event.status ("Got it! Downloaded " ++ basename url)]⟩
    | .error e => .error ("Uh-oh, couldn’t download the source: " ++ e)

/-! ### `PackageManager.extract_tarball` (lines 556-565) -/

/-- Embedding of `extract_tarball`: `tarOpen` is the outcome of opening and
extracting the archive; `dirsInDest` is what
`[d for d in os.listdir(dest_dir) if os.path.isdir(...)]` yields afterwards;
the first such directory (or `dest_dir` itself when none) is returned. -/
def extract_tarball (tarOpen : Except String Unit) (dirsInDest : List String)
    (dest_dir : String) : Except String String :=
  match tarOpen with
  | .error e => .error ("Yikes, couldn’t extract the tarball: " ++ e)
  | .ok _ =>
    match dirsInDest with
    | [] => .ok dest_dir
    | d :: _ => .ok (pathJoin dest_dir d)

/-! ### `PackageManager.build_package` (lines 567-579) -/

/-- Result of one external shell command (`subprocess.run` with
`shell=True` always yields an exit status). -/
structure CmdResult where
  returncode : Nat
  stdout : String
  stderr : String
deriving Repr, DecidableEq

/-- Structured content of the exception raised at line 576: the stage name,
the failing command, and the decoded standard-error text embedded in it. -/
structure BuildError where
  stage : String
  command : String
  stderr : String
deriving Repr, DecidableEq

/-- Embedding of the command loop of `build_package`: each command is run in
order; status-label text is emitted before each command and after each
success; a non-zero exit status raises immediately.  Returns the outcome,
the list of commands actually executed, and the status events. -/
def build_package (exec : String → CmdResult) (stage : String) :
    List String → Except BuildError Unit × List String × List Event
  | [] => (.ok (), [], [])
  | cmd :: rest =>
    let ev0 := Event.status (stage ++ ": " ++ cmd)
    let r := exec cmd
    if r.returncode ≠ 0 then
      (.error ⟨stage, cmd, r.stderr⟩, [cmd], [ev0])
    else
      let t := build_package exec stage rest
      (t.1, cmd :: t.2.1, ev0 :: Event.status (stage ++ " done") :: t.2.2)

/-- The exception text that escapes `build_package` (inner message of line
576 wrapped by line 579). -/
def buildErrorText (e : BuildError) : String :=
  "Oh no, the build failed: " ++ e.stage ++ " didn’t work: " ++ e.stderr

/-! ### `InstallationThread.run` (lines 34-79) -/

/-- Environment of one installation job: outcomes of the external effects,
in the order the pipeline consumes them. -/
structure World where
  findToml : Except String String
  parseToml : Except String TomlData
  download : Except String Unit
  tarOpen : Except String Unit
  dirsInDest : List String
  exec : String → CmdResult
  initialFiles : List String

/-- Accumulated per-stage state while the job runs. -/
structure StageState where
  events : List Event
  executed : List String
deriving Repr, DecidableEq

/-- One optional build stage as `run` performs it (lines 56-69): when the
stage is declared, emit its message, run its commands via `build_package`,
and on success emit the stage's progress milestone. -/
def doStage (exec : String → CmdResult) (cmds : Option (List String))
    (label stage : String) (pct : Nat) (s : StageState) :
    Except (StageState × String) StageState :=
  match cmds with
  | none => .ok s
  | some cs =>
    let r := build_package exec stage cs
    match r.1 with
    | .error e =>
        .error ({ events := s.events ++ [Event.message label] ++ r.2.2,
                  executed := s.executed ++ r.2.1 }, buildErrorText e)
    | .ok _ =>
        .ok { events := s.events ++ [Event.message label] ++ r.2.2
                          ++ [Event.progress pct],
              executed := s.executed ++ r.2.1 }

/-- The command rewriting of line 67: a command textually containing
`sudo` is prefixed with `pkexec `. -/
def pkexecRewrite (cmd : String) : String :=
  if substrTest "sudo" cmd then "pkexec " ++ cmd else cmd

/-- Everything observable about one finished job: emitted events, the files
existing afterwards, commands executed, and paths deleted by cleanup. -/
structure RunOut where
  events : List Event
  files : List String
  executed : List String
  removed : List String
deriving Repr, DecidableEq

/-- A failure completion event as `run`'s `except` branch emits it
(lines 76-79). -/
def failEvent (e : String) : Event := .finished false ("Failed: " ++ e) e

/-- Embedding of `InstallationThread.run`: locate the descriptor, parse it,
look up the `package` and `build` tables (a missing table raises `KeyError`
before anything else happens), fetch the first source URL into the
descriptor's own directory, extract into `BUILD_DIR`, run the declared
stages (install commands rewritten through `pkexec`), then delete the
extracted tree and the tarball and report success; any exception short
circuits to a failure completion event. -/
def runJob (w : World) (package_name : String) : RunOut :=
  match w.findToml with
  | .error e => ⟨[failEvent e], w.initialFiles, [], []⟩
  | .ok toml_path =>
  match load_package_info w.parseToml with
  | .error e => ⟨[failEvent e], w.initialFiles, [], []⟩
  | .ok info =>
  match info.package with
  | none => ⟨[failEvent (keyErrorMsg "package")], w.initialFiles, [], []⟩
  | some package =>
  match info.build with
  | none => ⟨[failEvent (keyErrorMsg "build")], w.initialFiles, [], []⟩
  | some build =>
  let evsA := [Event.message ("Loaded: " ++ basename toml_path), Event.progress 10]
  match package.src with
  | none => ⟨evsA ++ [failEvent (keyErrorMsg "src")], w.initialFiles, [], []⟩
  | some [] =>
      ⟨evsA ++ [failEvent "list index out of range"], w.initialFiles, [], []⟩
  | some (url :: _) =>
  match fetch_source w.download w.initialFiles url (dirname toml_path) with
  | .error e => ⟨evsA ++ [failEvent e], w.initialFiles, [], []⟩
  | .ok fo =>
  let evsB := evsA ++ fo.events ++ [Event.progress 30]
  match extract_tarball w.tarOpen w.dirsInDest BUILD_DIR with
  | .error e => ⟨evsB ++ [failEvent e], fo.fs, [], []⟩
  | .ok src_dir =>
  let st0 : StageState := ⟨evsB ++ [Event.progress 50], []⟩
  match doStage w.exec build.configure "Configuring..." "Configuring" 60 st0 with
  | .error (s, e) => ⟨s.events ++ [failEvent e], fo.fs, s.executed, []⟩
  | .ok st1 =>
  match doStage w.exec build.compile "Compiling..." "Compiling" 80 st1 with
  | .error (s, e) => ⟨s.events ++ [failEvent e], fo.fs, s.executed, []⟩
  | .ok st2 =>
  match doStage w.exec (build.install.map (List.map pkexecRewrite))
      "Installing..." "Installing" 90 st2 with
  | .error (s, e) => ⟨s.events ++ [failEvent e], fo.fs, s.executed, []⟩
  | .ok st3 =>
  ⟨st3.events ++ [Event.progress 100,
      Event.finished true ("\x27" ++ package_name ++ "\x27 installed") ""],
    fo.fs.erase fo.path, st3.executed, [src_dir, fo.path]⟩

/-! ### Helper lemmas about `build_package` -/

theorem build_package_cons_ok (ex : String → CmdResult) (stage cmd : String)
    (rest : List String) (hc : (ex cmd).returncode = 0) :
    build_package ex stage (cmd :: rest) =
      ((build_package ex stage rest).1,
       cmd :: (build_package ex stage rest).2.1,
       Event.status (stage ++ ": " ++ cmd) :: Event.status (stage ++ " done")
         :: (build_package ex stage rest).2.2) := by
  simp [build_package, hc]

theorem build_package_cons_fail (ex : String → CmdResult) (stage cmd : String)
    (rest : List String) (hc : (ex cmd).returncode ≠ 0) :
    build_package ex stage (cmd :: rest) =
      (.error ⟨stage, cmd, (ex cmd).stderr⟩, [cmd],
       [Event.status (stage ++ ": " ++ cmd)]) := by
  simp [build_package, hc]

theorem build_package_ok_iff (ex : String → CmdResult) (stage : String)
    (cmds : List String) :
    (build_package ex stage cmds).1 = .ok () ↔
      ∀ c ∈ cmds, (ex c).returncode = 0 := by
  induction cmds with
  | nil => simp [build_package]
  | cons cmd rest ih =>
    by_cases hc : (ex cmd).returncode = 0
    · rw [build_package_cons_ok ex stage cmd rest hc]
      simpa [hc] using ih
    · rw [build_package_cons_fail ex stage cmd rest hc]
      simp [hc]

theorem build_package_error_spec (ex : String → CmdResult) (stage : String)
    (cmds : List String) (err : BuildError)
    (h : (build_package ex stage cmds).1 = .error err) :
    ∃ pre post, cmds = pre ++ err.command :: post
      ∧ (∀ c ∈ pre, (ex c).returncode = 0)
      ∧ (ex err.command).returncode ≠ 0
      ∧ err.stderr = (ex err.command).stderr
      ∧ err.stage = stage
      ∧ (build_package ex stage cmds).2.1 = pre ++ [err.command] := by
  induction cmds with
  | nil => simp [build_package] at h
  | cons cmd rest ih =>
    by_cases hc : (ex cmd).returncode = 0
    · rw [build_package_cons_ok ex stage cmd rest hc] at h ⊢
      obtain ⟨pre, post, h1, h2, h3, h4, h5, h6⟩ := ih h
      refine ⟨cmd :: pre, post, by simp [h1], ?_, h3, h4, h5, by simp [h6]⟩
      intro c hcmem
      rcases List.mem_cons.mp hcmem with h' | h'
      · subst h'; exact hc
      · exact h2 c h'
    · rw [build_package_cons_fail ex stage cmd rest hc] at h ⊢
      obtain rfl : (⟨stage, cmd, (ex cmd).stderr⟩ : BuildError) = err := by
        simpa using h
      exact ⟨[], rest, by simp, by simp, hc, rfl, rfl, by simp⟩

theorem build_package_ok_executed (ex : String → CmdResult) (stage : String)
    (cmds : List String) (h : (build_package ex stage cmds).1 = .ok ()) :
    (build_package ex stage cmds).2.1 = cmds := by
  induction cmds with
  | nil => simp [build_package]
  | cons cmd rest ih =>
    by_cases hc : (ex cmd).returncode = 0
    · rw [build_package_cons_ok ex stage cmd rest hc] at h ⊢
      simpa using ih h
    · rw [build_package_cons_fail ex stage cmd rest hc] at h
      simp at h

@[simp]
theorem build_package_progressVals (ex : String → CmdResult) (stage : String)
    (cmds : List String) :
    progressVals (build_package ex stage cmds).2.2 = [] := by
  induction cmds with
  | nil => simp [build_package, progressVals]
  | cons cmd rest ih =>
    by_cases hc : (ex cmd).returncode = 0
    · rw [build_package_cons_ok ex stage cmd rest hc]
      simpa [progressVals] using ih
    · rw [build_package_cons_fail ex stage cmd rest hc]
      simp [progressVals]

@[simp]
theorem build_package_completions (ex : String → CmdResult) (stage : String)
    (cmds : List String) :
    completions (build_package ex stage cmds).2.2 = [] := by
  induction cmds with
  | nil => simp [build_package, completions]
  | cons cmd rest ih =>
    by_cases hc : (ex cmd).returncode = 0
    · rw [build_package_cons_ok ex stage cmd rest hc]
      simpa [completions] using ih
    · rw [build_package_cons_fail ex stage cmd rest hc]
      simp [completions]

@[simp]
theorem progressVals_append (a b : List Event) :
    progressVals (a ++ b) = progressVals a ++ progressVals b := by
  simp [progressVals]

@[simp]
theorem completions_append (a b : List Event) :
    completions (a ++ b) = completions a ++ completions b := by
  simp [completions]

/-! ### Helper lemmas about `doStage` -/

theorem doStage_ok_spec (ex : String → CmdResult) (cmds : Option (List String))
    (label stage : String) (pct : Nat) (s s' : StageState)
    (h : doStage ex cmds label stage pct s = .ok s') :
    progressVals s'.events
        = progressVals s.events ++ (if cmds.isSome then [pct] else [])
      ∧ completions s'.events = completions s.events
      ∧ s'.executed = s.executed ++ cmds.getD [] := by
  match cmds with
  | none =>
    simp only [doStage] at h
    obtain rfl : s = s' := by simpa using h
    simp
  | some cs =>
    simp only [doStage] at h
    rcases hr : (build_package ex stage cs).1 with e | u
    · rw [hr] at h; simp at h
    · rw [hr] at h
      obtain rfl : _ = s' := by simpa using h
      have hex := build_package_ok_executed ex stage cs (by cases u; exact hr)
      simp [hex]

theorem doStage_error_spec (ex : String → CmdResult) (cmds : Option (List String))
    (label stage : String) (pct : Nat) (s fs : StageState) (msg : String)
    (h : doStage ex cmds label stage pct s = .error (fs, msg)) :
    progressVals fs.events = progressVals s.events
      ∧ completions fs.events = completions s.events
      ∧ ∃ cs err, cmds = some cs
          ∧ (build_package ex stage cs).1 = .error err
          ∧ msg = buildErrorText err
          ∧ fs.executed = s.executed ++ (build_package ex stage cs).2.1 := by
  match cmds with
  | none => simp [doStage] at h
  | some cs =>
    simp only [doStage] at h
    rcases hr : (build_package ex stage cs).1 with e | u
    · rw [hr] at h
      simp only [Except.error.injEq, Prod.mk.injEq] at h
      obtain ⟨h1, h2⟩ := h
      subst h1
      subst h2
      refine ⟨by simp, by simp, cs, e, rfl, hr, rfl, rfl⟩
    · rw [hr] at h; simp at h

/-! ### `PackageManager.start_installation` (lines 592-607) -/

/-- The background thread object, as far as the guard of line 597 observes
it (`isRunning`) together with the package it was created for. -/
structure ThreadObj where
  packageName : String
  running : Bool
deriving Repr, DecidableEq

/-- The window state touched by `start_installation`. -/
structure AppState where
  selected_package : Option String
  install_thread : Option ThreadObj
  progress_bar_visible : Bool
  progress_bar_value : Nat
deriving Repr, DecidableEq

/-- What `start_installation` does besides mutating state: either it pops a
modal error box and returns, or it starts the new installation thread. -/
inductive StartAction where
  | errorBox (title text : String)
  | started
deriving Repr, DecidableEq

/-- The guard of line 597: `self.install_thread and self.install_thread.isRunning()`. -/
def threadActive (t : Option ThreadObj) : Bool :=
  match t with
  | none => false
  | some th => th.running

/-- Embedding of `start_installation`: reject when no package is selected,
reject when a thread is active; otherwise show the progress bar, reset it to
0, and start a fresh thread for the selected package. -/
def start_installation (s : AppState) : AppState × StartAction :=
  match s.selected_package with
  | none => (s, .errorBox "Error" "Hey, pick a package first!")
  | some pkg =>
    if threadActive s.install_thread then
      (s, .errorBox "Error" "Hold on, an installation’s already running!")
    else
      ({ s with
          progress_bar_visible := true
          progress_bar_value := 0
          install_thread := some ⟨pkg, true⟩ }, .started)

/-! ### Concrete test fixtures -/

/-- A deterministic command environment: the command `boom` fails with
stderr `kaboom`, everything else succeeds. -/
def execW : String → CmdResult := fun c =>
  if c = "boom" then ⟨1, "", "kaboom"⟩ else ⟨0, "out", ""⟩

/-- A command environment in which every command succeeds. -/
def execOk : String → CmdResult := fun _ => ⟨0, "out", ""⟩

/-- A fully populated, well-formed descriptor. -/
def tFull : TomlData :=
  ⟨some ⟨some "pkg", some ["https://example.org/pkg-1.0.tar.gz"]⟩,
   some ⟨some ["./configure"], some ["make"], some ["sudo make install"]⟩⟩

/-- A world in which every stage of the job succeeds. -/
def wAll : World :=
  { findToml := .ok "/home/user/sources/pkg.toml"
    parseToml := .ok tFull
    download := .ok ()
    tarOpen := .ok ()
    dirsInDest := ["pkg-1.0"]
    exec := execOk
    initialFiles := [] }

/-- A descriptor whose only declared stage is a failing configure command. -/
def tConf : TomlData :=
  ⟨some ⟨some "pkg", some ["https://example.org/pkg-1.0.tar.gz"]⟩,
   some ⟨some ["boom"], some ["make"], some ["make install"]⟩⟩

/-- A world whose configure stage fails. -/
def wFailConf : World :=
  { findToml := .ok "/home/user/sources/pkg.toml"
    parseToml := .ok tConf
    download := .ok ()
    tarOpen := .ok ()
    dirsInDest := ["pkg-1.0"]
    exec := execW
    initialFiles := [] }

/-- The fetch outcome in `wFailConf` / `wAll`: a fresh download into the
descriptor's directory. -/
def foFresh : FetchOut :=
  ⟨["/home/user/sources/pkg-1.0.tar.gz"], "/home/user/sources/pkg-1.0.tar.gz",
   true, [Event.status "Got it! Downloaded pkg-1.0.tar.gz"]⟩

/-- A world whose configure stage succeeds and whose compile stage fails,
with an install stage declared that must therefore be skipped. -/
def wFailComp : World :=
  { findToml := .ok "/home/user/sources/pkg.toml"
    parseToml := .ok ⟨some ⟨some "pkg", some ["https://example.org/pkg-1.0.tar.gz"]⟩,
      some ⟨some ["./configure"], some ["boom"], some ["make install"]⟩⟩
    download := .ok ()
    tarOpen := .ok ()
    dirsInDest := ["pkg-1.0"]
    exec := execW
    initialFiles := [] }

/-! ### C4 -/

/-- C4: `fetch_source` is idempotent — when the destination file named by
the URL's base name already exists the call returns that path with no
network access, no filesystem change and no status message; after any
successful call, a second call returns the same path with no network access
and no message; and the download status message is emitted exactly when a
fresh download happened. -/
theorem c4_idempotent_fetch (download download₂ : Except String Unit)
    (fs : List String) (url dest_dir : String) :
    (pathJoin dest_dir (basename url) ∈ fs →
      fetch_source download fs url dest_dir =
        .ok ⟨fs, pathJoin dest_dir (basename url), false, []⟩)
  ∧ (∀ fo, fetch_source download fs url dest_dir = .ok fo →
      fetch_source download₂ fo.fs url dest_dir = .ok ⟨fo.fs, fo.path, false, []⟩)
  ∧ (∀ fo, fetch_source download fs url dest_dir = .ok fo →
      (fo.events ≠ [] ↔ fo.network = true)
        ∧ (fo.network = true ↔ pathJoin dest_dir (basename url) ∉ fs)) := by
  refine ⟨?_, ?_, ?_⟩
  · intro h
    simp [fetch_source, h]
  · intro fo hfo
    by_cases h : pathJoin dest_dir (basename url) ∈ fs
    · simp only [fetch_source, if_pos h, Except.ok.injEq] at hfo
      subst hfo
      simp [fetch_source, h]
    · simp only [fetch_source, if_neg h] at hfo
      rcases hd : download with e | u
      · rw [hd] at hfo
        simp at hfo
      · rw [hd] at hfo
        simp only [Except.ok.injEq] at hfo
        subst hfo
        simp [fetch_source]
  · intro fo hfo
    by_cases h : pathJoin dest_dir (basename url) ∈ fs
    · simp only [fetch_source, if_pos h, Except.ok.injEq] at hfo
      subst hfo
      simp [h]
    · simp only [fetch_source, if_neg h] at hfo
      rcases hd : download with e | u
      · rw [hd] at hfo
        simp at hfo
      · rw [hd] at hfo
        simp only [Except.ok.injEq] at hfo
        subst hfo
        simp [h]

/-- Witness for C4: the second of two consecutive fetches of the same URL
into the same directory returns the same path with no network access and no
status message. -/
theorem c4_idempotent_fetch_witness :
    fetch_source (.ok ()) foFresh.fs "https://example.org/pkg-1.0.tar.gz"
        "/home/user/sources"
      = .ok ⟨foFresh.fs, foFresh.path, false, []⟩ :=
  (c4_idempotent_fetch (.ok ()) (.ok ()) [] "https://example.org/pkg-1.0.tar.gz"
    "/home/user/sources").2.1 foFresh rfl

/-! ### C5 -/

/-- C5: while an installation thread is running, `start_installation`
reports an error synchronously and leaves the whole window state — the
in-flight thread object, the progress bar, everything — unchanged, and
starts no new job. -/
theorem c5_single_flight (s : AppState)
    (h : threadActive s.install_thread = true) :
    (start_installation s).1 = s
      ∧ (start_installation s).2 ≠ .started
      ∧ ∃ title text, (start_installation s).2 = .errorBox title text := by
  match hsel : s.selected_package with
  | none =>
    refine ⟨by simp [start_installation, hsel], ?_, ?_⟩
    · simp [start_installation, hsel]
    · exact ⟨"Error", "Hey, pick a package first!", by simp [start_installation, hsel]⟩
  | some pkg =>
    refine ⟨by simp [start_installation, hsel, h], ?_, ?_⟩
    · simp [start_installation, hsel, h]
    · exact ⟨"Error", "Hold on, an installation’s already running!",
        by simp [start_installation, hsel, h]⟩

/-- Witness for C5: a concrete busy state is left untouched and gets an
error box. -/
theorem c5_single_flight_witness :
    (start_installation ⟨some "other", some ⟨"pkg", true⟩, true, 50⟩).1
        = ⟨some "other", some ⟨"pkg", true⟩, true, 50⟩
      ∧ (start_installation ⟨some "other", some ⟨"pkg", true⟩, true, 50⟩).2 ≠ .started
      ∧ ∃ title text,
          (start_installation ⟨some "other", some ⟨"pkg", true⟩, true, 50⟩).2
            = .errorBox title text :=
  c5_single_flight ⟨some "other", some ⟨"pkg", true⟩, true, 50⟩ (by decide)

/-! ### Progress milestones -/

/-- The fixed milestone sequence a job can report, as a function of which
stages the descriptor declares. -/
def milestones (b : BuildSection) : List Nat :=
  [10, 30, 50] ++ (if b.configure.isSome then [60] else [])
    ++ (if b.compile.isSome then [80] else [])
    ++ (if b.install.isSome then [90] else []) ++ [100]

/-- The build section a world's descriptor declares (defaulting to an empty
one when parsing fails or the table is absent). -/
def effectiveBuild (w : World) : BuildSection :=
  match w.parseToml with
  | .error _ => ⟨none, none, none⟩
  | .ok t =>
    match t.build with
    | none => ⟨none, none, none⟩
    | some b => b

theorem milestones_chain (b : BuildSection) :
    List.Chain' (· ≤ ·) (milestones b) := by
  rcases b with ⟨c, k, i⟩
  cases c <;> cases k <;> cases i <;> simp [milestones, List.chain'_cons]

theorem nilPre (l : List Nat) : [] <+: l := ⟨l, rfl⟩

theorem chainLeOfPre {l₁ l₂ : List Nat} (hc : List.Chain' (· ≤ ·) l₂)
    (hp : l₁ <+: l₂) : List.Chain' (· ≤ ·) l₁ :=
  hc.sublist hp.sublist

/-! ### More helper lemmas -/

theorem load_package_info_ok_iff (pr : Except String TomlData) (t : TomlData) :
    load_package_info pr = .ok t ↔ pr = .ok t := by
  cases pr <;> simp [load_package_info]

theorem fetch_source_ok_events (d : Except String Unit) (fs : List String)
    (u dd : String) (fo : FetchOut) (h : fetch_source d fs u dd = .ok fo) :
    progressVals fo.events = [] ∧ completions fo.events = [] := by
  by_cases hm : pathJoin dd (basename u) ∈ fs
  · simp only [fetch_source, if_pos hm, Except.ok.injEq] at h
    subst h
    simp
  · simp only [fetch_source, if_neg hm] at h
    rcases hd : d with e | u' <;> rw [hd] at h
    · simp at h
    · simp only [Except.ok.injEq] at h
      subst h
      simp

theorem fetch_source_ok_path (d : Except String Unit) (fs : List String)
    (u dd : String) (fo : FetchOut) (h : fetch_source d fs u dd = .ok fo) :
    fo.path = pathJoin dd (basename u) := by
  by_cases hm : pathJoin dd (basename u) ∈ fs
  · simp only [fetch_source, if_pos hm, Except.ok.injEq] at h
    subst h
    rfl
  · simp only [fetch_source, if_neg hm] at h
    rcases hd : d with e | u' <;> rw [hd] at h
    · simp at h
    · simp only [Except.ok.injEq] at h
      subst h
      rfl

theorem doStage_allok (ex : String → CmdResult) (cs : Option (List String))
    (label stage : String) (pct : Nat) (s : StageState)
    (hok : ∀ c ∈ cs.getD [], (ex c).returncode = 0) :
    ∃ s', doStage ex cs label stage pct s = .ok s'
      ∧ s'.executed = s.executed ++ cs.getD [] := by
  match cs with
  | none => exact ⟨s, rfl, by simp⟩
  | some csl =>
    have h1 : (build_package ex stage csl).1 = .ok () :=
      (build_package_ok_iff ex stage csl).mpr (by simpa using hok)
    refine ⟨⟨s.events ++ [Event.message label]
          ++ (build_package ex stage csl).2.2 ++ [Event.progress pct],
        s.executed ++ (build_package ex stage csl).2.1⟩, ?_, ?_⟩
    · simp only [doStage]
      rw [h1]
    · simp [build_package_ok_executed ex stage csl h1]

/-! ### C1 -/

/-- C1: `build_package` (the run-stage loop) fails if and only if some
command in the list exits with non-zero status; when it fails, the captured
diagnostic text of the raised error equals that command's standard-error
output and the executed commands are exactly those up to and including the
failing one; and inside a job, whichever stage fails — configure, compile
or install — the job's executed commands are the earlier stages' full lists
followed by the failing stage's own prefix, so no command of any later
stage is executed. -/
theorem c1_build_failure_fidelity :
    (∀ (ex : String → CmdResult) (stage : String) (cmds : List String),
      (∃ err, (build_package ex stage cmds).1 = .error err) ↔
        ∃ c ∈ cmds, (ex c).returncode ≠ 0)
  ∧ (∀ ex stage cmds err, (build_package ex stage cmds).1 = .error err →
      ∃ pre post, cmds = pre ++ err.command :: post
        ∧ (∀ c ∈ pre, (ex c).returncode = 0)
        ∧ (ex err.command).returncode ≠ 0
        ∧ err.stderr = (ex err.command).stderr
        ∧ err.stage = stage
        ∧ (build_package ex stage cmds).2.1 = pre ++ [err.command])
  ∧ (∀ w name p t pkg b u us fo sd err,
      w.findToml = .ok p → w.parseToml = .ok t → t.package = some pkg →
      t.build = some b → pkg.src = some (u :: us) →
      fetch_source w.download w.initialFiles u (dirname p) = .ok fo →
      extract_tarball w.tarOpen w.dirsInDest BUILD_DIR = .ok sd →
      ((build_package w.exec "Configuring" (b.configure.getD [])).1 = .error err →
        (runJob w name).executed
          = (build_package w.exec "Configuring" (b.configure.getD [])).2.1)
      ∧ ((∀ c ∈ b.configure.getD [], (w.exec c).returncode = 0) →
          (build_package w.exec "Compiling" (b.compile.getD [])).1 = .error err →
          (runJob w name).executed
            = b.configure.getD []
              ++ (build_package w.exec "Compiling" (b.compile.getD [])).2.1)
      ∧ ((∀ c ∈ b.configure.getD [], (w.exec c).returncode = 0) →
          (∀ c ∈ b.compile.getD [], (w.exec c).returncode = 0) →
          (build_package w.exec "Installing"
              ((b.install.getD []).map pkexecRewrite)).1 = .error err →
          (runJob w name).executed
            = b.configure.getD [] ++ b.compile.getD []
              ++ (build_package w.exec "Installing"
                    ((b.install.getD []).map pkexecRewrite)).2.1)) := by
  refine ⟨?_, ?_, ?_⟩
  · intro ex stage cmds
    constructor
    · rintro ⟨err, herr⟩
      obtain ⟨pre, post, h1, _, h3, _, _, _⟩ :=
        build_package_error_spec ex stage cmds err herr
      exact ⟨err.command, by simp [h1], h3⟩
    · rintro ⟨c, hc, hnz⟩
      rcases hr : (build_package ex stage cmds).1 with e | u
      · exact ⟨e, rfl⟩
      · cases u
        exact absurd ((build_package_ok_iff ex stage cmds).mp hr c hc) hnz
  · intro ex stage cmds err herr
    exact build_package_error_spec ex stage cmds err herr
  · intro w name p t pkg b u us fo sd err hfind hparse hpkg hbuild hsrc
      hfetch hextract
    have hl : load_package_info w.parseToml = .ok t :=
      (load_package_info_ok_iff w.parseToml t).mpr hparse
    refine ⟨?_, ?_, ?_⟩
    · intro herr
      rcases hc : b.configure with _ | cs
      · rw [hc] at herr
        simp [build_package] at herr
      · have herr' : (build_package w.exec "Configuring" cs).1 = .error err := by
          simpa [hc] using herr
        unfold runJob
        simp only [hfind, hl, hpkg, hbuild, hsrc, hfetch, hextract, hc,
          doStage, herr']
        simp [hc]
    · intro hconfok herr
      unfold runJob
      simp only [hfind, hl, hpkg, hbuild, hsrc, hfetch, hextract]
      obtain ⟨s1, hs1, he1⟩ := doStage_allok w.exec b.configure "Configuring..."
        "Configuring" 60
        ⟨[Event.message ("Loaded: " ++ basename p), Event.progress 10] ++ fo.events
          ++ [Event.progress 30] ++ [Event.progress 50], []⟩ hconfok
      simp only [hs1]
      rcases hc2 : b.compile with _ | cs
      · rw [hc2] at herr
        simp [build_package] at herr
      · have herr' : (build_package w.exec "Compiling" cs).1 = .error err := by
          simpa [hc2] using herr
        simp only [hc2, doStage, herr']
        simp [he1, hc2]
    · intro hconfok hcompok herr
      unfold runJob
      simp only [hfind, hl, hpkg, hbuild, hsrc, hfetch, hextract]
      obtain ⟨s1, hs1, he1⟩ := doStage_allok w.exec b.configure "Configuring..."
        "Configuring" 60
        ⟨[Event.message ("Loaded: " ++ basename p), Event.progress 10] ++ fo.events
          ++ [Event.progress 30] ++ [Event.progress 50], []⟩ hconfok
      simp only [hs1]
      obtain ⟨s2, hs2, he2⟩ := doStage_allok w.exec b.compile "Compiling..."
        "Compiling" 80 s1 hcompok
      simp only [hs2]
      rcases hc3 : b.install with _ | cs
      · rw [hc3] at herr
        simp [build_package] at herr
      · have herr' : (build_package w.exec "Installing"
            (cs.map pkexecRewrite)).1 = .error err := by
          simpa [hc3] using herr
        simp only [hc3, Option.map_some', doStage, herr']
        simp [he2, he1, hc3]

/-- Witness for C1: in the world `wFailComp`, whose compile stage fails
after a successful configure, the job's executed command list is the full
configure list followed by what the compile stage executed — no declared
install command ran. -/
theorem c1_build_failure_fidelity_witness :
    (runJob wFailComp "pkg").executed
      = ["./configure"] ++ (build_package wFailComp.exec "Compiling" ["boom"]).2.1 :=
  (c1_build_failure_fidelity.2.2 wFailComp "pkg" "/home/user/sources/pkg.toml"
    ⟨some ⟨some "pkg", some ["https://example.org/pkg-1.0.tar.gz"]⟩,
      some ⟨some ["./configure"], some ["boom"], some ["make install"]⟩⟩
    ⟨some "pkg", some ["https://example.org/pkg-1.0.tar.gz"]⟩
    ⟨some ["./configure"], some ["boom"], some ["make install"]⟩
    "https://example.org/pkg-1.0.tar.gz" [] foFresh
    "/home/user/sources/build/pkg-1.0" ⟨"Compiling", "boom", "kaboom"⟩
    rfl rfl rfl rfl rfl rfl rfl).2.1 (by decide) rfl

@[simp]
theorem progressVals_failEvent_cons (e : String) (l : List Event) :
    progressVals (failEvent e :: l) = progressVals l := rfl

@[simp]
theorem completions_failEvent_cons (e : String) (l : List Event) :
    completions (failEvent e :: l)
      = (false, "Failed: " ++ e, e) :: completions l := rfl

theorem milestones_pre1 (b : BuildSection) : [10] <+: milestones b := by
  refine ⟨[30, 50] ++ (if b.configure.isSome then [60] else [])
    ++ (if b.compile.isSome then [80] else [])
    ++ (if b.install.isSome then [90] else []) ++ [100], ?_⟩
  simp [milestones]

theorem milestones_pre3 (b : BuildSection) : [10, 30, 50] <+: milestones b := by
  refine ⟨(if b.configure.isSome then [60] else [])
    ++ (if b.compile.isSome then [80] else [])
    ++ (if b.install.isSome then [90] else []) ++ [100], ?_⟩
  simp [milestones]

theorem milestones_preC (b : BuildSection) :
    [10, 30, 50] ++ (if b.configure.isSome then [60] else []) <+: milestones b := by
  refine ⟨(if b.compile.isSome then [80] else [])
    ++ (if b.install.isSome then [90] else []) ++ [100], ?_⟩
  simp [milestones]

theorem milestones_preCC (b : BuildSection) :
    [10, 30, 50] ++ (if b.configure.isSome then [60] else [])
      ++ (if b.compile.isSome then [80] else []) <+: milestones b := by
  refine ⟨(if b.install.isSome then [90] else []) ++ [100], ?_⟩
  simp [milestones]

theorem milestones_full (b : BuildSection) :
    [10, 30, 50] ++ (if b.configure.isSome then [60] else [])
      ++ (if b.compile.isSome then [80] else [])
      ++ (if b.install.isSome then [90] else []) ++ [100] = milestones b := by
  simp [milestones]

theorem hundred_notin_one (c : Bool) :
    (100 : Nat) ∉ ([10, 30, 50] ++ (if c then [60] else []) : List Nat) := by
  cases c <;> decide

theorem hundred_notin_two (c k : Bool) :
    (100 : Nat) ∉ ([10, 30, 50] ++ (if c then [60] else [])
      ++ (if k then [80] else []) : List Nat) := by
  cases c <;> cases k <;> decide

theorem effectiveBuild_eq (w : World) (t : TomlData) (b : BuildSection)
    (hparse : load_package_info w.parseToml = .ok t) (hbuild : t.build = some b) :
    effectiveBuild w = b := by
  have h := (load_package_info_ok_iff w.parseToml t).mp hparse
  simp [effectiveBuild, h, hbuild]

/-- Master characterization of a job's observable trace: the progress
sequence is a prefix of the declared milestone list (hence non-decreasing),
100 entails the success completion, and a failure completion entails that
cleanup removed nothing. -/
theorem runJob_master (w : World) (name : String) :
    List.Chain' (· ≤ ·) (progressVals (runJob w name).events)
  ∧ progressVals (runJob w name).events <+: milestones (effectiveBuild w)
  ∧ ((100 : Nat) ∈ progressVals (runJob w name).events →
      completions (runJob w name).events
        = [(true, "\x27" ++ name ++ "\x27 installed", "")])
  ∧ (∀ m d, (false, m, d) ∈ completions (runJob w name).events →
      (runJob w name).removed = []) := by
  unfold runJob
  dsimp only
  split
  next e hfind =>
    exact ⟨by simp, by simp, by simp,
      fun m d _ => rfl⟩
  next p hfind =>
  split
  next e hparse =>
    exact ⟨by simp, by simp, by simp,
      fun m d _ => rfl⟩
  next t hparse =>
  split
  next hpkg =>
    exact ⟨by simp, by simp, by simp,
      fun m d _ => rfl⟩
  next pkg hpkg =>
  split
  next hbuild =>
    exact ⟨by simp, by simp, by simp,
      fun m d _ => rfl⟩
  next b hbuild =>
  have hb : effectiveBuild w = b := effectiveBuild_eq w t b hparse hbuild
  split
  next hsrc =>
    have hpre : ([10] : List Nat) <+: milestones (effectiveBuild w) := by
      rw [hb]; exact milestones_pre1 b
    exact ⟨by simp,
      by simpa using hpre, by simp, fun m d _ => rfl⟩
  next hsrc =>
    have hpre : ([10] : List Nat) <+: milestones (effectiveBuild w) := by
      rw [hb]; exact milestones_pre1 b
    exact ⟨by simp,
      by simpa using hpre, by simp, fun m d _ => rfl⟩
  next url tl hsrc =>
  split
  next e hfetch =>
    have hpre : ([10] : List Nat) <+: milestones (effectiveBuild w) := by
      rw [hb]; exact milestones_pre1 b
    exact ⟨by simp,
      by simpa using hpre, by simp, fun m d _ => rfl⟩
  next fo hfetch =>
  obtain ⟨hfp, hfc⟩ := fetch_source_ok_events w.download w.initialFiles url
    (dirname p) fo hfetch
  split
  next e hextract =>
    have hpre : ([10, 30] : List Nat) <+: milestones (effectiveBuild w) := by
      rw [hb]
      exact ⟨[50] ++ (if b.configure.isSome then [60] else [])
        ++ (if b.compile.isSome then [80] else [])
        ++ (if b.install.isSome then [90] else []) ++ [100], by simp [milestones]⟩
    refine ⟨?_, ?_, ?_, fun m d _ => rfl⟩
    · simp [hfp]
    · simpa [hfp] using hpre
    · simp [hfp]
  next sd hextract =>
  split
  next s e hconf =>
    obtain ⟨hsp, hsc, cs, err, hcs, hbp, hmsg, hex⟩ :=
      doStage_error_spec w.exec b.configure "Configuring..." "Configuring" 60 _ s e hconf
    have hpre : ([10, 30, 50] : List Nat) <+: milestones (effectiveBuild w) := by
      rw [hb]; exact milestones_pre3 b
    refine ⟨?_, ?_, ?_, fun m d _ => rfl⟩
    · simp [hsp, hfp]
    · simpa [hsp, hfp] using hpre
    · simp [hsp, hfp]
  next st1 hconf =>
  obtain ⟨h1p, h1c, h1e⟩ :=
    doStage_ok_spec w.exec b.configure "Configuring..." "Configuring" 60 _ st1 hconf
  split
  next s e hcomp =>
    obtain ⟨hsp, hsc, cs, err, hcs, hbp, hmsg, hex⟩ :=
      doStage_error_spec w.exec b.compile "Compiling..." "Compiling" 80 st1 s e hcomp
    refine ⟨?_, ?_, ?_, fun m d _ => rfl⟩
    · refine chainLeOfPre (milestones_chain (effectiveBuild w)) ?_
      rw [hb]
      simpa [hsp, h1p, hfp, List.append_assoc] using milestones_preC b
    · rw [hb]
      simpa [hsp, h1p, hfp, List.append_assoc] using milestones_preC b
    · intro hmem
      exfalso
      rw [show progressVals (s.events ++ [failEvent e])
          = [10, 30, 50] ++ (if b.configure.isSome then [60] else []) from by
        simp [hsp, h1p, hfp, List.append_assoc]] at hmem
      exact hundred_notin_one b.configure.isSome hmem
  next st2 hcomp =>
  obtain ⟨h2p, h2c, h2e⟩ :=
    doStage_ok_spec w.exec b.compile "Compiling..." "Compiling" 80 st1 st2 hcomp
  split
  next s e hinst =>
    obtain ⟨hsp, hsc, cs, err, hcs, hbp, hmsg, hex⟩ :=
      doStage_error_spec w.exec (b.install.map (List.map pkexecRewrite))
        "Installing..." "Installing" 90 st2 s e hinst
    refine ⟨?_, ?_, ?_, fun m d _ => rfl⟩
    · refine chainLeOfPre (milestones_chain (effectiveBuild w)) ?_
      rw [hb]
      simpa [hsp, h2p, h1p, hfp, List.append_assoc] using milestones_preCC b
    · rw [hb]
      simpa [hsp, h2p, h1p, hfp, List.append_assoc] using milestones_preCC b
    · intro hmem
      exfalso
      rw [show progressVals (s.events ++ [failEvent e])
          = [10, 30, 50] ++ (if b.configure.isSome then [60] else [])
            ++ (if b.compile.isSome then [80] else []) from by
        simp [hsp, h2p, h1p, hfp, List.append_assoc]] at hmem
      exact hundred_notin_two b.configure.isSome b.compile.isSome hmem
  next st3 hinst =>
  obtain ⟨h3p, h3c, h3e⟩ :=
    doStage_ok_spec w.exec (b.install.map (List.map pkexecRewrite))
      "Installing..." "Installing" 90 st2 st3 hinst
  have hmap : (b.install.map (List.map pkexecRewrite)).isSome = b.install.isSome := by
    cases b.install <;> rfl
  have hps : progressVals (st3.events ++ [Event.progress 100,
      Event.finished true ("\x27" ++ name ++ "\x27 installed") ""])
      = [10, 30, 50] ++ (if b.configure.isSome then [60] else [])
        ++ (if b.compile.isSome then [80] else [])
        ++ (if b.install.isSome then [90] else []) ++ [100] := by
    simp [h3p, h2p, h1p, hfp, hmap, List.append_assoc]
  have hcsr : completions (st3.events ++ [Event.progress 100,
      Event.finished true ("\x27" ++ name ++ "\x27 installed") ""])
      = [(true, "\x27" ++ name ++ "\x27 installed", "")] := by
    simp [h3c, h2c, h1c, hfc]
  refine ⟨?_, ?_, ?_, ?_⟩
  · refine chainLeOfPre (milestones_chain (effectiveBuild w)) ?_
    rw [hb, hps, milestones_full b]
  · rw [hb, hps, milestones_full b]
  · intro _
    exact hcsr
  · intro m d hmem
    rw [hcsr] at hmem
    simp at hmem

@[simp]
theorem install_map_getD (b : BuildSection) :
    (b.install.map (List.map pkexecRewrite)).getD []
      = (b.install.getD []).map pkexecRewrite := by
  cases b.install <;> rfl

/-- A job that reaches the stages and then emits a success completion has
run all declared stage commands (install ones rewritten), and its cleanup
removed exactly the extracted source directory and the fetched artifact. -/
theorem runJob_success_spec (w : World) (name p : String) (t : TomlData)
    (pkg : PkgSection) (b : BuildSection) (u : String) (us : List String)
    (fo : FetchOut) (sd : String)
    (hfind : w.findToml = .ok p) (hparse : w.parseToml = .ok t)
    (hpkg : t.package = some pkg) (hbuild : t.build = some b)
    (hsrc : pkg.src = some (u :: us))
    (hfetch : fetch_source w.download w.initialFiles u (dirname p) = .ok fo)
    (hextract : extract_tarball w.tarOpen w.dirsInDest BUILD_DIR = .ok sd)
    (hsucc : ∃ m d, (true, m, d) ∈ completions (runJob w name).events) :
    (runJob w name).removed = [sd, fo.path]
      ∧ (runJob w name).executed
          = b.configure.getD [] ++ b.compile.getD []
            ++ (b.install.getD []).map pkexecRewrite := by
  have hl : load_package_info w.parseToml = .ok t :=
    (load_package_info_ok_iff w.parseToml t).mpr hparse
  obtain ⟨hfp, hfc⟩ := fetch_source_ok_events w.download w.initialFiles u
    (dirname p) fo hfetch
  unfold runJob at hsucc ⊢
  simp only [hfind, hl, hpkg, hbuild, hsrc, hfetch, hextract] at hsucc ⊢
  split at hsucc
  next s e hconf =>
    obtain ⟨hsp, hsc, _, _, _, _, _, _⟩ :=
      doStage_error_spec w.exec b.configure "Configuring..." "Configuring" 60 _ s e hconf
    obtain ⟨m, d, hmem⟩ := hsucc
    rw [show completions (s.events ++ [failEvent e])
        = [(false, "Failed: " ++ e, e)] from by simp [hsc, hfc]] at hmem
    simp at hmem
  next st1 hconf =>
  obtain ⟨h1p, h1c, h1e⟩ :=
    doStage_ok_spec w.exec b.configure "Configuring..." "Configuring" 60 _ st1 hconf
  split at hsucc
  next s e hcomp =>
    obtain ⟨hsp, hsc, _, _, _, _, _, _⟩ :=
      doStage_error_spec w.exec b.compile "Compiling..." "Compiling" 80 st1 s e hcomp
    obtain ⟨m, d, hmem⟩ := hsucc
    rw [show completions (s.events ++ [failEvent e])
        = [(false, "Failed: " ++ e, e)] from by simp [hsc, h1c, hfc]] at hmem
    simp at hmem
  next st2 hcomp =>
  obtain ⟨h2p, h2c, h2e⟩ :=
    doStage_ok_spec w.exec b.compile "Compiling..." "Compiling" 80 st1 st2 hcomp
  split at hsucc
  next s e hinst =>
    obtain ⟨hsp, hsc, _, _, _, _, _, _⟩ :=
      doStage_error_spec w.exec (b.install.map (List.map pkexecRewrite))
        "Installing..." "Installing" 90 st2 s e hinst
    obtain ⟨m, d, hmem⟩ := hsucc
    rw [show completions (s.events ++ [failEvent e])
        = [(false, "Failed: " ++ e, e)] from by simp [hsc, h2c, h1c, hfc]] at hmem
    simp at hmem
  next st3 hinst =>
  obtain ⟨h3p, h3c, h3e⟩ :=
    doStage_ok_spec w.exec (b.install.map (List.map pkexecRewrite))
      "Installing..." "Installing" 90 st2 st3 hinst
  simp only [hconf, hcomp, hinst]
  exact ⟨by trivial, by simp [h3e, h2e, h1e]⟩

/-! ### C8 -/

/-- A descriptor that parses fine but declares neither `name` nor `src`. -/
def tBare : TomlData := ⟨some ⟨none, none⟩, some ⟨none, none, none⟩⟩

/-- Counterexample for C8: a descriptor whose `[package]` table lacks both
the `name` and the `src` keys is returned by `load_package_info` untouched —
no parse error is raised for the missing required fields. -/
theorem c8_counterexample :
    load_package_info (.ok tBare) = .ok tBare
      ∧ tBare.package = some ⟨none, none⟩
      ∧ (⟨none, none⟩ : PkgSection).name = none
      ∧ (⟨none, none⟩ : PkgSection).src = none :=
  ⟨rfl, rfl, rfl, rfl⟩

/-- C8 (amended): `load_package_info` fails exactly when `toml.load` fails
(wrapping the parse/IO error text); it performs no schema validation, so a
descriptor lacking `name` or `src` is returned as-is, and a missing `src`
only surfaces later, inside the job, as a `KeyError` failure completion. -/
theorem c8_load_parse_only (pr : Except String TomlData) :
    (∀ e, pr = .error e →
      load_package_info pr = .error ("Oops, couldn’t load the TOML file: " ++ e))
  ∧ (∀ t, pr = .ok t → load_package_info pr = .ok t)
  ∧ (∀ w n p t pkg b,
      w.findToml = .ok p → w.parseToml = .ok t → t.package = some pkg →
      t.build = some b → pkg.src = none →
      completions (runJob w n).events
        = [(false, "Failed: " ++ keyErrorMsg "src", keyErrorMsg "src")]) := by
  refine ⟨?_, ?_, ?_⟩
  · rintro e rfl
    rfl
  · rintro t rfl
    rfl
  · intro w n p t pkg b hfind hparse hpkg hbuild hsrc
    unfold runJob
    simp only [hfind, load_package_info, hparse, hpkg, hbuild, hsrc]
    simp [failEvent]

/-- A world whose descriptor parses but has no `src` key. -/
def wNoSrc : World :=
  { findToml := .ok "/home/user/sources/pkg.toml"
    parseToml := .ok ⟨some ⟨some "pkg", none⟩, some ⟨none, none, none⟩⟩
    download := .ok ()
    tarOpen := .ok ()
    dirsInDest := []
    exec := execW
    initialFiles := [] }

/-- Witness for C8 (amended): in `wNoSrc` the missing `src` key turns into
a failure completion event carrying the `KeyError` text. -/
theorem c8_load_parse_only_witness :
    completions (runJob wNoSrc "pkg").events
      = [(false, "Failed: " ++ keyErrorMsg "src", keyErrorMsg "src")] :=
  (c8_load_parse_only wNoSrc.parseToml).2.2 wNoSrc "pkg"
    "/home/user/sources/pkg.toml" ⟨some ⟨some "pkg", none⟩, some ⟨none, none, none⟩⟩
    ⟨some "pkg", none⟩ ⟨none, none, none⟩ rfl rfl rfl rfl rfl

/-! ### C10 -/

/-- A world whose descriptor parses but has no `[build]` table at all. -/
def wNoBuild : World :=
  { findToml := .ok "/home/user/sources/pkg.toml"
    parseToml := .ok ⟨some ⟨some "pkg", some ["https://example.org/pkg-1.0.tar.gz"]⟩, none⟩
    download := .ok ()
    tarOpen := .ok ()
    dirsInDest := []
    exec := execW
    initialFiles := [] }

/-- A world whose descriptor has an empty (but present) `[build]` table. -/
def wEmptyBuild : World :=
  { findToml := .ok "/home/user/sources/pkg.toml"
    parseToml := .ok ⟨some ⟨some "pkg", some ["https://example.org/pkg-1.0.tar.gz"]⟩,
      some ⟨none, none, none⟩⟩
    download := .ok ()
    tarOpen := .ok ()
    dirsInDest := ["pkg-1.0"]
    exec := execW
    initialFiles := [] }

/-- C10: a descriptor with no `[build]` table makes the job fail before
anything else happens — the `KeyError` is raised before the loaded message,
any progress, any fetch (files untouched) and any command — even though a
descriptor with an empty-but-present `[build]` table (all three stage lists
individually absent) sails through to a success completion. -/
theorem c10_missing_build_table :
    (∀ w n p t pkg,
      w.findToml = .ok p → w.parseToml = .ok t → t.package = some pkg →
      t.build = none →
      runJob w n = ⟨[failEvent (keyErrorMsg "build")], w.initialFiles, [], []⟩)
  ∧ completions (runJob wEmptyBuild "pkg").events
      = [(true, "\x27pkg\x27 installed", "")] := by
  constructor
  · intro w n p t pkg hfind hparse hpkg hbuild
    unfold runJob
    simp only [hfind, load_package_info, hparse, hpkg, hbuild]
  · decide

/-- Witness for C10: the concrete world `wNoBuild` fails with the `KeyError`
completion and performs no fetch and no command. -/
theorem c10_missing_build_table_witness :
    runJob wNoBuild "pkg" = ⟨[failEvent (keyErrorMsg "build")], [], [], []⟩ :=
  c10_missing_build_table.1 wNoBuild "pkg" "/home/user/sources/pkg.toml"
    ⟨some ⟨some "pkg", some ["https://example.org/pkg-1.0.tar.gz"]⟩, none⟩
    ⟨some "pkg", some ["https://example.org/pkg-1.0.tar.gz"]⟩ rfl rfl rfl rfl

/-! ### C2 -/

/-- C2: across a job's lifetime the emitted progress values form a prefix
of the fixed milestone list determined by the declared stages (10, 30, 50,
then 60/80/90 only for declared stages, then 100) — in particular the
sequence is non-decreasing and skipped stages do not shift later milestone
values — and 100 is emitted only when the completion event reports
success. -/
theorem c2_monotonic_progress (w : World) (name : String) :
    List.Chain' (· ≤ ·) (progressVals (runJob w name).events)
  ∧ progressVals (runJob w name).events <+: milestones (effectiveBuild w)
  ∧ ((100 : Nat) ∈ progressVals (runJob w name).events →
      completions (runJob w name).events
        = [(true, "\x27" ++ name ++ "\x27 installed", "")]) :=
  ⟨(runJob_master w name).1, (runJob_master w name).2.1,
   (runJob_master w name).2.2.1⟩

/-- Witness for C2: in the all-success world the milestone 100 is reached
and the completion event is the success one. -/
theorem c2_monotonic_progress_witness :
    completions (runJob wAll "pkg").events
      = [(true, "\x27pkg\x27 installed", "")] :=
  (c2_monotonic_progress wAll "pkg").2.2 (by decide)

/-! ### C3 -/

/-- C3: cleanup is reached only on the success path — whenever the
completion event reports failure nothing was removed; and on a successful
job the removals are exactly the extracted source directory followed by the
fetched artifact, performed after every declared stage's commands ran. -/
theorem c3_cleanup_only_on_success (w : World) (name : String) :
    (∀ m d, (false, m, d) ∈ completions (runJob w name).events →
      (runJob w name).removed = [])
  ∧ (∀ p t pkg b u us fo sd,
      w.findToml = .ok p → w.parseToml = .ok t → t.package = some pkg →
      t.build = some b → pkg.src = some (u :: us) →
      fetch_source w.download w.initialFiles u (dirname p) = .ok fo →
      extract_tarball w.tarOpen w.dirsInDest BUILD_DIR = .ok sd →
      (∃ m d, (true, m, d) ∈ completions (runJob w name).events) →
      (runJob w name).removed = [sd, fo.path]
        ∧ (runJob w name).executed
            = b.configure.getD [] ++ b.compile.getD []
              ++ (b.install.getD []).map pkexecRewrite) :=
  ⟨(runJob_master w name).2.2.2,
   fun p t pkg b u us fo sd hfind hparse hpkg hbuild hsrc hfetch hextract hsucc =>
     runJob_success_spec w name p t pkg b u us fo sd hfind hparse hpkg hbuild
       hsrc hfetch hextract hsucc⟩

/-- Witness for C3: the all-success world removes exactly the extracted
tree and the artifact, after executing every declared command. -/
theorem c3_cleanup_only_on_success_witness :
    (runJob wAll "pkg").removed
        = ["/home/user/sources/build/pkg-1.0", "/home/user/sources/pkg-1.0.tar.gz"]
      ∧ (runJob wAll "pkg").executed
          = ["./configure", "make", "pkexec sudo make install"] :=
  (c3_cleanup_only_on_success wAll "pkg").2 "/home/user/sources/pkg.toml" tFull
    ⟨some "pkg", some ["https://example.org/pkg-1.0.tar.gz"]⟩
    ⟨some ["./configure"], some ["make"], some ["sudo make install"]⟩
    "https://example.org/pkg-1.0.tar.gz" [] foFresh
    "/home/user/sources/build/pkg-1.0" rfl rfl rfl rfl rfl rfl rfl
    ⟨"\x27pkg\x27 installed", "", by decide⟩

/-! ### C6 -/

/-- Counterexample for C6: in a job whose configure stage fails, the
downloaded artifact is left at `/home/user/sources/pkg-1.0.tar.gz` — inside
the source tree, next to the descriptor — which differs from the
`BUILD_DIR`-based path the claim requires. -/
theorem c6_counterexample :
    (runJob wFailConf "pkg").files = ["/home/user/sources/pkg-1.0.tar.gz"]
  ∧ pathJoin BUILD_DIR (basename "https://example.org/pkg-1.0.tar.gz")
      = "/home/user/sources/build/pkg-1.0.tar.gz"
  ∧ ("/home/user/sources/pkg-1.0.tar.gz" : String)
      ≠ "/home/user/sources/build/pkg-1.0.tar.gz" :=
  ⟨by decide, by decide, by decide⟩

/-- C6 (amended): the artifact is fetched under the URL's base name into
the directory containing the descriptor file — a source-tree location the
pipeline writes to — not into `BUILD_DIR`; on the success path cleanup
deletes the extracted tree and that descriptor-directory artifact path. -/
theorem c6_artifact_in_descriptor_dir (w : World) (name p : String)
    (t : TomlData) (pkg : PkgSection) (b : BuildSection) (u : String)
    (us : List String) (fo : FetchOut) (sd : String)
    (hfind : w.findToml = .ok p) (hparse : w.parseToml = .ok t)
    (hpkg : t.package = some pkg) (hbuild : t.build = some b)
    (hsrc : pkg.src = some (u :: us))
    (hfetch : fetch_source w.download w.initialFiles u (dirname p) = .ok fo)
    (hextract : extract_tarball w.tarOpen w.dirsInDest BUILD_DIR = .ok sd)
    (hsucc : ∃ m d, (true, m, d) ∈ completions (runJob w name).events) :
    fo.path = pathJoin (dirname p) (basename u)
      ∧ (runJob w name).removed = [sd, pathJoin (dirname p) (basename u)] := by
  have hpath := fetch_source_ok_path w.download w.initialFiles u (dirname p) fo hfetch
  have h := runJob_success_spec w name p t pkg b u us fo sd hfind hparse hpkg
    hbuild hsrc hfetch hextract hsucc
  exact ⟨hpath, by rw [h.1, hpath]⟩

/-- Witness for C6 (amended): the all-success job fetches the artifact into
the descriptor's directory and cleans up exactly there. -/
theorem c6_artifact_in_descriptor_dir_witness :
    foFresh.path = pathJoin (dirname "/home/user/sources/pkg.toml")
        (basename "https://example.org/pkg-1.0.tar.gz")
      ∧ (runJob wAll "pkg").removed
          = ["/home/user/sources/build/pkg-1.0",
             pathJoin (dirname "/home/user/sources/pkg.toml")
               (basename "https://example.org/pkg-1.0.tar.gz")] :=
  c6_artifact_in_descriptor_dir wAll "pkg" "/home/user/sources/pkg.toml" tFull
    ⟨some "pkg", some ["https://example.org/pkg-1.0.tar.gz"]⟩
    ⟨some ["./configure"], some ["make"], some ["sudo make install"]⟩
    "https://example.org/pkg-1.0.tar.gz" [] foFresh
    "/home/user/sources/build/pkg-1.0" rfl rfl rfl rfl rfl rfl rfl
    ⟨"\x27pkg\x27 installed", "", by decide⟩

/-! ### C7 -/

/-- A world whose configure stage consists of a single command containing
the sudo marker. -/
def wConfSudo : World :=
  { findToml := .ok "/home/user/sources/pkg.toml"
    parseToml := .ok ⟨some ⟨some "pkg", some ["https://example.org/pkg-1.0.tar.gz"]⟩,
      some ⟨some ["sudo cfg"], none, none⟩⟩
    download := .ok ()
    tarOpen := .ok ()
    dirsInDest := ["pkg-1.0"]
    exec := execOk
    initialFiles := [] }

/-- Counterexample for C7: a configure command containing the sudo marker
is executed verbatim — it is not rewritten through `pkexec` as the claim
asserts for every stage. -/
theorem c7_counterexample :
    (runJob wConfSudo "pkg").executed = ["sudo cfg"]
  ∧ substrTest "sudo" "sudo cfg" = true
  ∧ pkexecRewrite "sudo cfg" = "pkexec sudo cfg"
  ∧ ("sudo cfg" : String) ≠ "pkexec sudo cfg" :=
  ⟨by decide, by decide, by decide, by decide⟩

/-- C7 (amended): only the install stage's commands are routed through the
privilege-escalation front end — each install command containing the sudo
marker is executed as `pkexec ` prefixed to its text and marker-free
install commands run unchanged — while configure and compile commands are
always executed verbatim. -/
theorem c7_pkexec_only_install (w : World) (name p : String) (t : TomlData)
    (pkg : PkgSection) (b : BuildSection) (u : String) (us : List String)
    (fo : FetchOut) (sd : String)
    (hfind : w.findToml = .ok p) (hparse : w.parseToml = .ok t)
    (hpkg : t.package = some pkg) (hbuild : t.build = some b)
    (hsrc : pkg.src = some (u :: us))
    (hfetch : fetch_source w.download w.initialFiles u (dirname p) = .ok fo)
    (hextract : extract_tarball w.tarOpen w.dirsInDest BUILD_DIR = .ok sd)
    (hok : ∀ c, (w.exec c).returncode = 0) :
    (runJob w name).executed
      = b.configure.getD [] ++ b.compile.getD []
        ++ (b.install.getD []).map pkexecRewrite := by
  have hl : load_package_info w.parseToml = .ok t :=
    (load_package_info_ok_iff w.parseToml t).mpr hparse
  unfold runJob
  simp only [hfind, hl, hpkg, hbuild, hsrc, hfetch, hextract]
  obtain ⟨s1, hs1, he1⟩ := doStage_allok w.exec b.configure "Configuring..."
    "Configuring" 60
    ⟨[Event.message ("Loaded: " ++ basename p), Event.progress 10] ++ fo.events
      ++ [Event.progress 30] ++ [Event.progress 50], []⟩ (fun c _ => hok c)
  obtain ⟨s2, hs2, he2⟩ := doStage_allok w.exec b.compile "Compiling..."
    "Compiling" 80 s1 (fun c _ => hok c)
  obtain ⟨s3, hs3, he3⟩ := doStage_allok w.exec
    (b.install.map (List.map pkexecRewrite)) "Installing..." "Installing" 90 s2
    (fun c _ => hok c)
  simp only [hs1, hs2, hs3]
  simp [he3, he2, he1]

/-- Witness for C7 (amended): in the all-success world the configure and
compile commands run verbatim while the sudo-marked install command is
prefixed with `pkexec `. -/
theorem c7_pkexec_only_install_witness :
    (runJob wAll "pkg").executed
      = ["./configure", "make", "pkexec sudo make install"] := by
  have h := c7_pkexec_only_install wAll "pkg" "/home/user/sources/pkg.toml" tFull
    ⟨some "pkg", some ["https://example.org/pkg-1.0.tar.gz"]⟩
    ⟨some ["./configure"], some ["make"], some ["sudo make install"]⟩
    "https://example.org/pkg-1.0.tar.gz" [] foFresh
    "/home/user/sources/build/pkg-1.0" rfl rfl rfl rfl rfl rfl rfl
    (fun c => rfl)
  simpa using h

/-! ### C9: package-name search (`get_all_package_names`, `load_all_packages`, lines 626-644) -/

/-- One descriptor file of the source tree: its filename and the `name` it
declares inside (the latter is never read by the search code). -/
structure SourceFile where
  fname : String
  declaredName : String
deriving Repr, DecidableEq

/-- Embedding of `get_all_package_names`: the extension-stripped filenames
of all `.toml` files under the source tree. -/
def get_all_package_names (files : List SourceFile) : List String :=
  (files.filter fun f => strEndsWith f.fname ".toml").map fun f =>
    splitextStem f.fname

/-- Embedding of the filter of `load_all_packages`: keep the names whose
lowercase form contains `query` (Python `query in pkg.lower()`). -/
def load_all_packages (files : List SourceFile) (query : String) : List String :=
  (get_all_package_names files).filter fun pkg =>
    substrTest query (strToLower pkg)

/-- Embedding of `search_packages`: the search text is lowercased and passed
to `load_all_packages`. -/
def search_packages (files : List SourceFile) (searchText : String) : List String :=
  load_all_packages files (strToLower searchText)

/-- Modelled from the spec: `listNames(query)` returns every descriptor's
name whose filename or declared name contains `query` as a case-insensitive
substring (empty query matches all).  This definition follows the spec's
words and exists only to be compared with the code's behaviour. -/
def listNames_spec (files : List SourceFile) (query : String) : List String :=
  (files.filter fun f =>
      substrTest (strToLower query) (strToLower f.fname)
        || substrTest (strToLower query) (strToLower f.declaredName)).map
    fun f => f.declaredName

@[simp]
theorem containsSub_nil_left (l : List Char) : containsSub [] l = true := by
  cases l <;> simp [containsSub, leadsChars]

/-- Counterexample for C9: a descriptor whose declared name contains the
query but whose filename does not is not returned by the search, although
the claim requires it. -/
theorem c9_counterexample :
    search_packages [⟨"foo.toml", "bar"⟩] "bar" = []
  ∧ substrTest (strToLower "bar") (strToLower "bar") = true
  ∧ listNames_spec [⟨"foo.toml", "bar"⟩] "bar" = ["bar"] :=
  ⟨by decide, by decide, by decide⟩

/-- C9 (amended): the search returns exactly the extension-stripped
filenames of `.toml` descriptor files whose stem contains the lowercased
query as a substring — the declared name inside the file is never
consulted — and the empty query returns every descriptor's stem. -/
theorem c9_search_matches_filename_stems (files : List SourceFile) (q : String) :
    (∀ x, x ∈ search_packages files q ↔
      ∃ f ∈ files, strEndsWith f.fname ".toml" = true
        ∧ x = splitextStem f.fname
        ∧ substrTest (strToLower q) (strToLower x) = true)
  ∧ search_packages files "" = get_all_package_names files := by
  constructor
  · intro x
    simp only [search_packages, load_all_packages, get_all_package_names,
      List.mem_filter, List.mem_map]
    constructor
    · rintro ⟨⟨f, ⟨hfm, hext⟩, rfl⟩, hsub⟩
      exact ⟨f, hfm, hext, rfl, hsub⟩
    · rintro ⟨f, hfmem, hext, rfl, hsub⟩
      exact ⟨⟨f, ⟨hfmem, hext⟩, rfl⟩, hsub⟩
  · have hq : (strToLower "").data = [] := rfl
    simp only [search_packages, load_all_packages]
    rw [List.filter_eq_self]
    intro a _
    simp [substrTest, hq]

/-- Witness for C9 (amended): for a concrete tree, the empty query returns
every stem. -/
theorem c9_search_matches_filename_stems_witness :
    search_packages [⟨"foo.toml", "bar"⟩, ⟨"baz.toml", "baz"⟩] ""
      = get_all_package_names [⟨"foo.toml", "bar"⟩, ⟨"baz.toml", "baz"⟩] :=
  (c9_search_matches_filename_stems
    [⟨"foo.toml", "bar"⟩, ⟨"baz.toml", "baz"⟩] "").2

end LxpkgGui
